import Mathlib

/-!
Shallow embedding of `src/triage/component/architect/feature_block_generators.py`.

The module turns a declarative feature-engineering configuration into an ordered
list of `collate.SpacetimeAggregation` feature blocks.  Python dictionaries used
as imputation-rule sets are embedded as association lists with Python dict
semantics (`PyDict`); the relational store and the logging side effects are
embedded as an explicit `Store` record threaded through every operation, so that
"a query was executed", "a table was created" and "a warning was emitted" are
observable facts about the final state.  Fallible Python code (a raised
`ValueError` / `TypeError` / `KeyError`) is embedded with `Except String`.
-/

namespace Triage

/-- Rows returned by the store for a choice query: the first column (the value
of interest) plus any remaining columns, so that `row[0]` is total. -/
abbrev Row := String × List String

deriving instance DecidableEq for Except

/-- Observable state of the external world: the relational store plus the
logging stream.  `executedQueries` records every categorical choice query run
through `conn.execute`, in order; `createdTables` the physical tables created
by materialization; `executedDDL` every DDL statement issued; `warnings` the
messages passed to `logging.warning`. -/
structure Store where
  executedQueries : List String
  createdTables : List String
  executedDDL : List String
  warnings : List String
deriving DecidableEq, Repr

/-- Mutable state of one `SpacetimeAggregationGenerator` instance: its
`categorical_cache` dict (exact choice-query text, then the resolved list of
first-column values) together with the store. -/
structure GenState where
  categorical_cache : List (String × List String)
  store : Store
deriving DecidableEq, Repr

/-- Lookup in the `categorical_cache` dict: first binding of the exact query
text. -/
def cacheLookup (cache : List (String × List String)) (q : String) :
    Option (List String) :=
  match cache with
  | [] => none
  | p :: rest => if p.1 = q then some p.2 else cacheLookup rest q

/-- Python dict with string keys and values, as an association list in
insertion order. -/
abbrev PyDict := List (String × String)

/-- Python `d[k]` as an option: the binding for `k`, if present. -/
def PyDict.get : PyDict → String → Option String
  | [], _ => none
  | p :: rest, k => if p.1 = k then some p.2 else PyDict.get rest k

/-- Python `d[k] = v`: replace the first binding of `k` in place, or append a
new binding at the end. -/
def PyDict.set : PyDict → String → String → PyDict
  | [], k, v => [(k, v)]
  | p :: rest, k, v => if p.1 = k then (k, v) :: rest else p :: PyDict.set rest k v

/-- Python `d.update(ov)`: set every binding of `ov`, in order. -/
def PyDict.update (d ov : PyDict) : PyDict :=
  ov.foldl (fun acc p => acc.set p.1 p.2) d

/-- CPython message for a duplicate keyword argument in the `dict(...)` calls
of `_aggregation`, `_build_categoricals` and `_build_array_categoricals`. -/
def type_error_coltype : String :=
  "dict() got multiple values for keyword argument \x27coltype\x27"

/-- Embedding of `dict(base, coltype=ct, **ov)` as used for every
imputation-rule merge in the source: copy `base`, apply the keyword argument
`coltype=ct`, then apply the unpacked feature-level override `ov`.  CPython
raises a `TypeError` when `ov` itself binds the explicit keyword `coltype`;
that failure is embedded as `none`. -/
def dict_merge (base : PyDict) (ct : String) (ov : PyDict) : Option PyDict :=
  if ov.any (fun p => p.1 = "coltype") then none
  else some ((base.set "coltype" ct).update ov)

/-- Configuration of one entry of the `aggregates` list of an aggregation
config: `quantity` and `metrics` are required keys, `imputation` and `coltype`
are read with `.get` and default to empty / absent. -/
structure AggregateConfig where
  quantity : String
  metrics : List String
  imputation : PyDict
  coltype : Option String
deriving DecidableEq, Repr

/-- Configuration of one entry of the `categoricals` or `array_categoricals`
list.  `choices` is `some l` when the key `"choices"` is present in the config
dict (bound to the list `l`, possibly empty) and `none` when the key is absent;
`choice_query` is the lookup-query text. -/
structure CategoricalConfig where
  column : String
  metrics : List String
  choices : Option (List String)
  choice_query : String
  imputation : PyDict
  coltype : Option String
deriving DecidableEq, Repr

/-- One aggregation-block configuration (one element of the list under the
`spacetime_aggregations` strategy key).  `from_obj`, `intervals`, `groups`,
`knowledge_date_column` and the output prefix are required keys; the three
imputation defaults and the three feature lists are read with `.get` and
default to empty.  The source's `prefix` key is embedded as `prefix_name`. -/
structure AggregationConfig where
  aggregates_imputation : PyDict
  categoricals_imputation : PyDict
  array_categoricals_imputation : PyDict
  aggregates : List AggregateConfig
  categoricals : List CategoricalConfig
  array_categoricals : List CategoricalConfig
  from_obj : String
  intervals : List String
  groups : List String
  knowledge_date_column : String
  prefix_name : String
deriving DecidableEq, Repr

/-- A built `collate.Aggregate` column spec, restricted to the fields the
source passes. -/
structure Aggregate where
  quantity : String
  metrics : List String
  impute_rules : PyDict
  coltype : Option String
deriving DecidableEq, Repr

/-- A built `collate.Categorical` column spec, restricted to the fields the
source passes. -/
structure Categorical where
  col : String
  choices : List String
  function : List String
  impute_rules : PyDict
  include_null : Bool
  coltype : Option String
deriving DecidableEq, Repr

/-- A built `collate.Compare` column spec (used for array categoricals),
restricted to the fields the source passes.  `choices` is the dict
comprehension mapping each discrete choice to its rendered literal. -/
structure Compare where
  col : String
  op : String
  choices : List (String × String)
  function : List String
  impute_rules : PyDict
  op_in_name : Bool
  quote_choices : Bool
  include_null : Bool
  coltype : Option String
deriving DecidableEq, Repr

/-- The three column-spec variants, as combined by `aggregates + categoricals
+ array_categoricals` in `_aggregation`. -/
inductive ColSpec where
  | aggregate : Aggregate → ColSpec
  | categorical : Categorical → ColSpec
  | array_categorical : Compare → ColSpec
deriving DecidableEq, Repr

/-- A built `collate.SpacetimeAggregation` feature block, restricted to the
data fields the source passes or reads (the `db_engine` collaborator handle is
kept outside the record).  The source's `prefix` field is embedded as
`prefix_name`. -/
structure SpacetimeAggregation where
  aggregates : List ColSpec
  from_obj : String
  intervals : List String
  groups : List String
  as_of_dates : List String
  cohort_table : String
  entity_column : String
  date_column : String
  output_date_column : String
  feature_start_time : Option String
  features_schema_name : String
  prefix_name : String
  features_ignore_cohort : Bool
deriving DecidableEq, Repr

/-- Modelled from the spec: `collate.SpacetimeAggregation.get_create_schema`
(not under src/) exposes "a schema-creation directive (or none)"; the
directive has create-if-absent semantics and is absent when no target schema
is configured. -/
def SpacetimeAggregation.get_create_schema (a : SpacetimeAggregation) :
    Option String :=
  if a.features_schema_name = "" then none
  else some ("CREATE SCHEMA IF NOT EXISTS " ++ a.features_schema_name)

/-- Modelled from the spec: the heuristic of `collate.FromObj` (not under
src/) deciding whether a source expression "structurally looks like it should
be persisted (i.e., it is not already a bare table reference)".  A bare table
reference contains no space and no parenthesis; anything else looks like a
subquery. -/
def looksLikeSubquery (s : String) : Bool :=
  s.data.any (fun c => c = ' ' || c = '(')

/-- Embedding of `collate.FromObj` as constructed by
`preprocess_aggregation`: the logical source expression, the physical target
name and the knowledge-date column. -/
structure FromObj where
  from_obj : String
  name : String
  knowledge_date_column : String
deriving DecidableEq, Repr

/-- Modelled from the spec: `collate.FromObj.maybe_materialize` (not under
src/) materializes the source expression into the physical table `name` under
a "materialize if not already present" policy, and only when the expression
looks like a subquery. -/
def FromObj.maybe_materialize (f : FromObj) (s : Store) : Store :=
  if looksLikeSubquery f.from_obj ∧ f.name ∉ s.createdTables then
    { s with
      createdTables := s.createdTables ++ [f.name],
      executedDDL := s.executedDDL ++
        ["CREATE TABLE " ++ f.name ++ " AS " ++ f.from_obj] }
  else s

/-- Modelled from the spec: `collate.FromObj.table` (not under src/) is the
physical table when the expression is materialized, and the original
expression otherwise, so that assigning it back leaves non-materialized
sources unchanged. -/
def FromObj.table (f : FromObj) : String :=
  if looksLikeSubquery f.from_obj then f.name else f.from_obj

/-- Immutable context of one `SpacetimeAggregationGenerator` instance, as set
by `__init__` (the mutable `categorical_cache` lives in `GenState`). -/
structure SpacetimeAggregationGenerator where
  db_engine : String → List Row
  features_schema_name : String
  feature_start_time : Option String
  materialize_subquery_fromobjs : Bool
  features_ignore_cohort : Bool
  entity_id_column : String

/-- Embedding of `SpacetimeAggregationGenerator._compute_choices`: on a cache
miss, execute the choice query, keep the first column of every row in row
order, and cache the list under the exact query text; on a hit, return the
cached list unchanged. -/
def SpacetimeAggregationGenerator._compute_choices
    (g : SpacetimeAggregationGenerator) (st : GenState) (choice_query : String) :
    List String × GenState :=
  match cacheLookup st.categorical_cache choice_query with
  | some vs => (vs, st)
  | none =>
    let vs := (g.db_engine choice_query).map Prod.fst
    (vs,
      { categorical_cache := (choice_query, vs) :: st.categorical_cache,
        store := { st.store with
          executedQueries := st.store.executedQueries ++ [choice_query] } })

/-- Embedding of `SpacetimeAggregationGenerator._build_choices`: when the
`"choices"` key is present in the categorical config the configured list is
returned verbatim; otherwise the choice query is resolved through
`_compute_choices`. -/
def SpacetimeAggregationGenerator._build_choices
    (g : SpacetimeAggregationGenerator) (st : GenState)
    (categorical : CategoricalConfig) : List String × GenState :=
  match categorical.choices with
  | some cs => (cs, st)
  | none => SpacetimeAggregationGenerator._compute_choices g st categorical.choice_query

/-- Embedding of `SpacetimeAggregationGenerator._build_categoricals`: one
`Categorical` per config entry, in order; choices are resolved before the
imputation-rule merge of that entry may raise, matching Python's left-to-right
evaluation of the `Categorical(...)` keyword arguments. -/
def SpacetimeAggregationGenerator._build_categoricals
    (g : SpacetimeAggregationGenerator) (categorical_config : List CategoricalConfig)
    (impute_rules : PyDict) (st : GenState) :
    Except String (List Categorical) × GenState :=
  match categorical_config with
  | [] => (.ok [], st)
  | c :: rest =>
    let cs := (SpacetimeAggregationGenerator._build_choices g st c).1
    let st1 := (SpacetimeAggregationGenerator._build_choices g st c).2
    match dict_merge impute_rules "categorical" c.imputation with
    | none => (.error type_error_coltype, st1)
    | some m =>
      match SpacetimeAggregationGenerator._build_categoricals g rest impute_rules st1 with
      | (.error e, st2) => (.error e, st2)
      | (.ok tail, st2) =>
        (.ok ({ col := c.column, choices := cs, function := c.metrics,
                impute_rules := m, include_null := true,
                coltype := c.coltype } :: tail), st2)

/-- Rendering of one discrete choice of an array categorical, from the format
string of `_build_array_categoricals`: a single-element varchar array
literal. -/
def array_literal (choice : String) : String :=
  "array[\x27" ++ choice ++ "\x27::varchar]"

/-- Embedding of `SpacetimeAggregationGenerator._build_array_categoricals`:
one `Compare` per config entry with the `@>` containment operator, each choice
mapped to a single-element array literal, quoting suppressed, and the null
flag set. -/
def SpacetimeAggregationGenerator._build_array_categoricals
    (g : SpacetimeAggregationGenerator) (categorical_config : List CategoricalConfig)
    (impute_rules : PyDict) (st : GenState) :
    Except String (List Compare) × GenState :=
  match categorical_config with
  | [] => (.ok [], st)
  | c :: rest =>
    let cs := (SpacetimeAggregationGenerator._build_choices g st c).1
    let st1 := (SpacetimeAggregationGenerator._build_choices g st c).2
    match dict_merge impute_rules "array_categorical" c.imputation with
    | none => (.error type_error_coltype, st1)
    | some m =>
      match SpacetimeAggregationGenerator._build_array_categoricals g rest impute_rules st1 with
      | (.error e, st2) => (.error e, st2)
      | (.ok tail, st2) =>
        (.ok ({ col := c.column, op := "@>",
                choices := cs.map (fun choice => (choice, array_literal choice)),
                function := c.metrics, impute_rules := m,
                op_in_name := false, quote_choices := false,
                include_null := true, coltype := c.coltype } :: tail), st2)

/-- Helper for the `aggregates` list comprehension of `_aggregation`: one
`Aggregate` per entry, in order; the merge of an entry may raise, aborting the
comprehension. -/
def build_aggregates (agimp : PyDict) :
    List AggregateConfig → Except String (List Aggregate)
  | [] => .ok []
  | a :: rest =>
    match dict_merge agimp "aggregate" a.imputation with
    | none => .error type_error_coltype
    | some m =>
      match build_aggregates agimp rest with
      | .error e => .error e
      | .ok tail =>
        .ok ({ quantity := a.quantity, metrics := a.metrics,
               impute_rules := m, coltype := a.coltype } :: tail)

/-- Embedding of `SpacetimeAggregationGenerator._aggregation`: read the three
type-level imputation defaults, build the aggregates, then the categoricals,
then the array categoricals (in that order, so an earlier failure prevents the
later store queries), and assemble the `SpacetimeAggregation`. -/
def SpacetimeAggregationGenerator._aggregation
    (g : SpacetimeAggregationGenerator) (aggregation_config : AggregationConfig)
    (feature_dates : List String) (state_table : String) (st : GenState) :
    Except String SpacetimeAggregation × GenState :=
  let agimp := aggregation_config.aggregates_imputation
  let catimp := aggregation_config.categoricals_imputation
  let arrcatimp := aggregation_config.array_categoricals_imputation
  match build_aggregates agimp aggregation_config.aggregates with
  | .error e => (.error e, st)
  | .ok aggs =>
    match SpacetimeAggregationGenerator._build_categoricals g
        aggregation_config.categoricals catimp st with
    | (.error e, st1) => (.error e, st1)
    | (.ok cats, st1) =>
      match SpacetimeAggregationGenerator._build_array_categoricals g
          aggregation_config.array_categoricals arrcatimp st1 with
      | (.error e, st2) => (.error e, st2)
      | (.ok arrcats, st2) =>
        (.ok
          { aggregates := aggs.map ColSpec.aggregate
              ++ cats.map ColSpec.categorical
              ++ arrcats.map ColSpec.array_categorical,
            from_obj := aggregation_config.from_obj,
            intervals := aggregation_config.intervals,
            groups := aggregation_config.groups,
            as_of_dates := feature_dates,
            cohort_table := state_table,
            entity_column := g.entity_id_column,
            date_column := aggregation_config.knowledge_date_column,
            output_date_column := "as_of_date",
            feature_start_time := g.feature_start_time,
            features_schema_name := g.features_schema_name,
            prefix_name := aggregation_config.prefix_name,
            features_ignore_cohort := g.features_ignore_cohort }, st2)

/-- Embedding of `SpacetimeAggregationGenerator.preprocess_aggregation`:
execute the schema-creation directive when present, then, when subquery
materialization is enabled, build the `FromObj` named
`{features_schema_name}.{prefix}`, let it materialize if needed, and rewrite
the aggregation's source expression to its table. -/
def SpacetimeAggregationGenerator.preprocess_aggregation
    (g : SpacetimeAggregationGenerator) (aggregation : SpacetimeAggregation)
    (st : GenState) : SpacetimeAggregation × GenState :=
  let st1 :=
    match aggregation.get_create_schema with
    | none => st
    | some ddl =>
      { st with store := { st.store with
          executedDDL := st.store.executedDDL ++ [ddl] } }
  if g.materialize_subquery_fromobjs then
    let from_obj : FromObj :=
      { from_obj := aggregation.from_obj,
        name := aggregation.features_schema_name ++ "." ++ aggregation.prefix_name,
        knowledge_date_column := aggregation.date_column }
    ({ aggregation with from_obj := from_obj.table },
      { st1 with store := from_obj.maybe_materialize st1.store })
  else (aggregation, st1)

/-- Embedding of `SpacetimeAggregationGenerator.aggregations`: for each
aggregation config in order, build the aggregation and preprocess it; the
resulting blocks in config order. -/
def SpacetimeAggregationGenerator.aggregations
    (g : SpacetimeAggregationGenerator)
    (feature_aggregation_config : List AggregationConfig)
    (feature_dates : List String) (state_table : String) (st : GenState) :
    Except String (List SpacetimeAggregation) × GenState :=
  match feature_aggregation_config with
  | [] => (.ok [], st)
  | cfg :: rest =>
    match SpacetimeAggregationGenerator._aggregation g cfg feature_dates state_table st with
    | (.error e, st1) => (.error e, st1)
    | (.ok a, st1) =>
      let b := (SpacetimeAggregationGenerator.preprocess_aggregation g a st1).1
      let st2 := (SpacetimeAggregationGenerator.preprocess_aggregation g a st1).2
      match SpacetimeAggregationGenerator.aggregations g rest feature_dates state_table st2 with
      | (.error e, st3) => (.error e, st3)
      | (.ok bs, st3) => (.ok (b :: bs), st3)

/-- Warning emitted by `generate_spacetime_aggregations` when no cohort table
is passed. -/
def no_cohort_warning : String :=
  "No cohort table passed. Imputation will not be possible."

/-- Embedding of `generate_spacetime_aggregations`: when the cohort table is
absent (falsy), emit the warning and force `features_ignore_cohort`; then run
a fresh `SpacetimeAggregationGenerator` (empty categorical cache) over the
config. -/
def generate_spacetime_aggregations
    (db_engine : String → List Row)
    (feature_aggregation_config : List AggregationConfig)
    (as_of_dates : List String) (cohort_table : String)
    (features_schema_name : String) (feature_start_time : Option String)
    (materialize_subquery_fromobjs : Bool) (features_ignore_cohort : Bool)
    (store : Store) : Except String (List SpacetimeAggregation) × Store :=
  let store1 :=
    if cohort_table = "" then
      { store with warnings := store.warnings ++ [no_cohort_warning] }
    else store
  let fic := if cohort_table = "" then true else features_ignore_cohort
  let g : SpacetimeAggregationGenerator :=
    { db_engine := db_engine,
      features_schema_name := features_schema_name,
      feature_start_time := feature_start_time,
      materialize_subquery_fromobjs := materialize_subquery_fromobjs,
      features_ignore_cohort := fic,
      entity_id_column := "entity_id" }
  let r := SpacetimeAggregationGenerator.aggregations g
    feature_aggregation_config as_of_dates cohort_table
    { categorical_cache := [], store := store1 }
  (r.1, r.2.store)

/-- The single registered feature-block generator strategy. -/
inductive FeatureBlockGeneratorTag where
  | spacetime_aggregations
deriving DecidableEq, Repr

/-- Embedding of the `FEATURE_BLOCK_GENERATOR_LOOKUP` dict probe
(`.get(config_key, None)`). -/
def FEATURE_BLOCK_GENERATOR_LOOKUP (config_key : String) :
    Option FeatureBlockGeneratorTag :=
  if config_key = "spacetime_aggregations" then
    some FeatureBlockGeneratorTag.spacetime_aggregations
  else none

/-- Rendering of `FEATURE_BLOCK_GENERATOR_LOOKUP.keys()` in the error
message. -/
def feature_block_generator_keys : String :=
  "dict_keys([\x27spacetime_aggregations\x27])"

/-- Message of the `ValueError` raised by `feature_blocks_from_config` for an
unrecognized strategy key. -/
def unrecognized_key_message (config_key : String) : String :=
  "feature config key " ++ config_key ++ " does not correspond to a recognized"
    ++ " feature generator.  Recognized feature generator keys:"
    ++ feature_block_generator_keys

/-- The per-key loop of `feature_blocks_from_config`: look the key up in the
registry, raise for an unrecognized key, otherwise run the generator and
append every block it returns, then continue with the remaining keys. -/
def feature_blocks_loop
    (db_engine : String → List Row) (as_of_dates : List String)
    (cohort_table : String) (features_schema_name : String)
    (feature_start_time : Option String)
    (materialize_subquery_fromobjs : Bool) (features_ignore_cohort : Bool) :
    List (String × List AggregationConfig) → Store →
    Except String (List SpacetimeAggregation) × Store
  | [], store => (.ok [], store)
  | (config_key, config_value) :: rest, store =>
    match FEATURE_BLOCK_GENERATOR_LOOKUP config_key with
    | none => (.error (unrecognized_key_message config_key), store)
    | some FeatureBlockGeneratorTag.spacetime_aggregations =>
      match generate_spacetime_aggregations db_engine config_value as_of_dates
          cohort_table features_schema_name feature_start_time
          materialize_subquery_fromobjs features_ignore_cohort store with
      | (.error e, store1) => (.error e, store1)
      | (.ok blocks, store1) =>
        match feature_blocks_loop db_engine as_of_dates cohort_table
            features_schema_name feature_start_time
            materialize_subquery_fromobjs features_ignore_cohort rest store1 with
        | (.error e, store2) => (.error e, store2)
        | (.ok more, store2) => (.ok (blocks ++ more), store2)

/-- Embedding of `feature_blocks_from_config`: the config is the ordered list
of (strategy key, strategy config) items; the result is the flattened ordered
list of feature blocks, or the first error raised.
`materialize_subquery_fromobjs` stands for the `**kwargs` passthrough (its
Python default is true). -/
def feature_blocks_from_config
    (db_engine : String → List Row)
    (config : List (String × List AggregationConfig))
    (as_of_dates : List String) (cohort_table : String)
    (features_schema_name : String) (feature_start_time : Option String)
    (materialize_subquery_fromobjs : Bool) (features_ignore_cohort : Bool)
    (store : Store) : Except String (List SpacetimeAggregation) × Store :=
  feature_blocks_loop db_engine as_of_dates cohort_table features_schema_name
    feature_start_time materialize_subquery_fromobjs features_ignore_cohort
    config store

/-! Python-dict lemmas used by the imputation-merge claims. -/

theorem PyDict.get_set_self (d : PyDict) (k v : String) :
    (d.set k v).get k = some v := by
  induction d with
  | nil => simp [PyDict.set, PyDict.get]
  | cons p rest ih =>
    by_cases hp : p.1 = k
    · simp [PyDict.set, PyDict.get, hp]
    · simp [PyDict.set, PyDict.get, hp, ih]

theorem PyDict.get_set_of_ne (d : PyDict) (k v kk : String) (h : kk ≠ k) :
    (d.set k v).get kk = d.get kk := by
  induction d with
  | nil => simp [PyDict.set, PyDict.get, Ne.symm h]
  | cons p rest ih =>
    by_cases hp : p.1 = k
    · simp [PyDict.set, PyDict.get, hp, Ne.symm h]
    · simp [PyDict.set, PyDict.get, hp, ih]

theorem PyDict.get_eq_none_iff (d : PyDict) (k : String) :
    d.get k = none ↔ ∀ p ∈ d, p.1 ≠ k := by
  induction d with
  | nil => simp [PyDict.get]
  | cons p rest ih =>
    by_cases hp : p.1 = k <;> simp [PyDict.get, hp, ih]

theorem PyDict.update_cons (d : PyDict) (p : String × String) (rest : PyDict) :
    d.update (p :: rest) = (d.set p.1 p.2).update rest := rfl

theorem PyDict.get_update_of_none (d ov : PyDict) (k : String)
    (h : ov.get k = none) : (d.update ov).get k = d.get k := by
  induction ov generalizing d with
  | nil => simp [PyDict.update]
  | cons p rest ih =>
    have hp : p.1 ≠ k := by
      intro hh
      simp [PyDict.get, hh] at h
    have hr : PyDict.get rest k = none := by
      simpa [PyDict.get, hp] using h
    rw [PyDict.update_cons, ih _ hr, PyDict.get_set_of_ne]
    exact fun hh => hp hh.symm

theorem PyDict.get_update_of_some (d ov : PyDict) (k v : String)
    (hnd : (ov.map Prod.fst).Nodup) (h : ov.get k = some v) :
    (d.update ov).get k = some v := by
  induction ov generalizing d with
  | nil => simp [PyDict.get] at h
  | cons p rest ih =>
    have hnd2 := hnd
    rw [List.map_cons, List.nodup_cons] at hnd2
    rw [PyDict.update_cons]
    by_cases hp : p.1 = k
    · have hv : p.2 = v := by simpa [PyDict.get, hp] using h
      have hnotin : ∀ q ∈ rest, q.1 ≠ k := by
        intro q hq hqk
        have hmem : p.1 ∈ rest.map Prod.fst := by
          rw [hp, ← hqk]
          exact List.mem_map_of_mem Prod.fst hq
        exact hnd2.1 hmem
      have hrest : PyDict.get rest k = none :=
        (PyDict.get_eq_none_iff _ _).mpr hnotin
      rw [PyDict.get_update_of_none _ _ _ hrest, ← hp, PyDict.get_set_self, hv]
    · have hr : PyDict.get rest k = some v := by
        simpa [PyDict.get, hp] using h
      exact ih _ hnd2.2 hr

theorem dict_merge_eq_some (base ov : PyDict) (ct : String)
    (hct : ov.get "coltype" = none) :
    dict_merge base ct ov = some ((base.set "coltype" ct).update ov) := by
  have hno : ∀ p ∈ ov, p.1 ≠ "coltype" := (PyDict.get_eq_none_iff _ _).mp hct
  have hfalse : (ov.any fun p => decide (p.1 = "coltype")) = false := by
    rw [List.any_eq_false]
    intro p hp
    simp only [decide_eq_true_eq]
    exact hno p hp
  simp [dict_merge, hfalse]

/-- C3 (amended): for every column variant tag, merging a type-level default
imputation rule set with a feature-level override that does not itself bind
the key `coltype` yields the union of both rule sets in which the
feature-level value wins on every conflicting key, and the merged result
carries the `coltype` tag passed for the variant (`"aggregate"`,
`"categorical"` or `"array_categorical"` at the three call sites).  When the
override does bind `coltype`, the merge fails with a `TypeError` instead (see
the counterexample). -/
theorem c3_merge_override_wins (default ov : PyDict) (ct : String)
    (hnd : (ov.map Prod.fst).Nodup) (hct : ov.get "coltype" = none) :
    ∃ m, dict_merge default ct ov = some m
      ∧ m.get "coltype" = some ct
      ∧ (∀ k v, ov.get k = some v → m.get k = some v)
      ∧ (∀ k, k ≠ "coltype" → ov.get k = none → m.get k = default.get k) := by
  refine ⟨(default.set "coltype" ct).update ov, dict_merge_eq_some _ _ _ hct,
    ?_, ?_, ?_⟩
  · rw [PyDict.get_update_of_none _ _ _ hct, PyDict.get_set_self]
  · intro k v hk
    exact PyDict.get_update_of_some _ _ _ _ hnd hk
  · intro k hk hnone
    rw [PyDict.get_update_of_none _ _ _ hnone, PyDict.get_set_of_ne _ _ _ _ hk]

/-- C3 witness: the spec's own example, default `{a:1, b:2}` and override
`{b:3, c:4}` for the categorical variant: the merge succeeds, the override
wins on `b`, the union keeps `a` and `c`, and the result is tagged
`coltype = "categorical"`. -/
theorem c3_merge_override_wins_witness :
    ∃ m, dict_merge [("a", "1"), ("b", "2")] "categorical" [("b", "3"), ("c", "4")]
        = some m
      ∧ m.get "coltype" = some "categorical"
      ∧ (∀ k v, PyDict.get [("b", "3"), ("c", "4")] k = some v → m.get k = some v)
      ∧ (∀ k, k ≠ "coltype" → PyDict.get [("b", "3"), ("c", "4")] k = none →
          m.get k = PyDict.get [("a", "1"), ("b", "2")] k) :=
  c3_merge_override_wins [("a", "1"), ("b", "2")] [("b", "3"), ("c", "4")]
    "categorical" (by decide) (by decide)

/-- C3 counterexample: a feature-level override that binds `coltype` (here
with the very value matching its variant, so the claimed union would carry
the correct tag) makes the merge of `_build_categoricals` raise a
`TypeError` — Python's duplicate-keyword-argument check in
`dict(impute_rules, coltype="categorical", **override)` — instead of yielding
the union with the override winning. -/
theorem c3_merge_counterexample :
    dict_merge [("a", "1"), ("b", "2")] "categorical" [("coltype", "categorical")]
      = none := by decide

/-! Sample objects used by concrete witnesses. -/

/-- Empty external world. -/
def sampleStore : Store :=
  { executedQueries := [], createdTables := [], executedDDL := [], warnings := [] }

/-- Fresh generator state over the empty world. -/
def sampleState : GenState :=
  { categorical_cache := [], store := sampleStore }

/-- A store oracle with one two-row choice query. -/
def sampleDb : String → List Row :=
  fun q => if q = "select distinct v from t" then [("v1", []), ("v2", [])] else []

/-- A generator instance over `sampleDb`. -/
def sampleGenerator : SpacetimeAggregationGenerator :=
  { db_engine := sampleDb, features_schema_name := "features",
    feature_start_time := none, materialize_subquery_fromobjs := true,
    features_ignore_cohort := false, entity_id_column := "entity_id" }

/-- C5: a categorical (or array-categorical) entry that supplies an explicit
choices list has that list returned verbatim by `_build_choices`, with the
generator state unchanged — in particular no store query is executed — even
though the entry also carries a `choice_query`. -/
theorem c5_explicit_choices_used_verbatim
    (g : SpacetimeAggregationGenerator) (st : GenState)
    (categorical : CategoricalConfig) (cs : List String)
    (h : categorical.choices = some cs) :
    SpacetimeAggregationGenerator._build_choices g st categorical = (cs, st) := by
  simp [SpacetimeAggregationGenerator._build_choices, h]

/-- C5 witness: an entry with explicit choices `["a", "b"]` and a lookup query
whose execution would return `["v1", "v2"]`: the configured list comes back
and the state (hence the executed-query trace) is untouched. -/
theorem c5_explicit_choices_used_verbatim_witness :
    SpacetimeAggregationGenerator._build_choices sampleGenerator sampleState
      { column := "c", metrics := ["max"], choices := some ["a", "b"],
        choice_query := "select distinct v from t", imputation := [],
        coltype := none }
      = (["a", "b"], sampleState) :=
  c5_explicit_choices_used_verbatim sampleGenerator sampleState _ _ rfl

/-- C10: presence, not truthiness, of the `choices` key decides resolution: a
key present but bound to the empty list is used verbatim (empty value set,
state unchanged, so no lookup query runs), while only an absent key falls
through to `_compute_choices` on the lookup query. -/
theorem c10_choices_presence_not_truthiness :
    (∀ (g : SpacetimeAggregationGenerator) (st : GenState)
        (categorical : CategoricalConfig), categorical.choices = some [] →
      SpacetimeAggregationGenerator._build_choices g st categorical = ([], st))
    ∧ (∀ (g : SpacetimeAggregationGenerator) (st : GenState)
        (categorical : CategoricalConfig), categorical.choices = none →
      SpacetimeAggregationGenerator._build_choices g st categorical
        = SpacetimeAggregationGenerator._compute_choices g st
            categorical.choice_query) := by
  constructor
  · intro g st categorical h
    simp [SpacetimeAggregationGenerator._build_choices, h]
  · intro g st categorical h
    simp [SpacetimeAggregationGenerator._build_choices, h]

/-- C10 witness: an entry whose `choices` key is present but empty resolves to
the empty list without touching the state, while the same entry without the
key resolves through the lookup query. -/
theorem c10_choices_presence_not_truthiness_witness :
    (SpacetimeAggregationGenerator._build_choices sampleGenerator sampleState
      { column := "c", metrics := ["max"], choices := some [],
        choice_query := "select distinct v from t", imputation := [],
        coltype := none }
      = ([], sampleState))
    ∧ (SpacetimeAggregationGenerator._build_choices sampleGenerator sampleState
      { column := "c", metrics := ["max"], choices := none,
        choice_query := "select distinct v from t", imputation := [],
        coltype := none }
      = SpacetimeAggregationGenerator._compute_choices sampleGenerator
          sampleState "select distinct v from t") :=
  ⟨c10_choices_presence_not_truthiness.1 sampleGenerator sampleState _ rfl,
   c10_choices_presence_not_truthiness.2 sampleGenerator sampleState _ rfl⟩

/-! Helper lemmas for C8. -/

theorem build_categoricals_include_null (g : SpacetimeAggregationGenerator)
    (cfgs : List CategoricalConfig) (imp : PyDict) :
    ∀ (st : GenState) (cats : List Categorical) (st' : GenState),
      SpacetimeAggregationGenerator._build_categoricals g cfgs imp st
        = (.ok cats, st') →
      ∀ c ∈ cats, c.include_null = true := by
  induction cfgs with
  | nil =>
    intro st cats st' h c hc
    simp only [SpacetimeAggregationGenerator._build_categoricals,
      Prod.mk.injEq, Except.ok.injEq] at h
    rw [← h.1] at hc
    cases hc
  | cons c rest ih =>
    intro st cats st' h x hx
    simp only [SpacetimeAggregationGenerator._build_categoricals] at h
    cases hm : dict_merge imp "categorical" c.imputation with
    | none => rw [hm] at h; simp at h
    | some m =>
      rw [hm] at h
      rcases h2 : SpacetimeAggregationGenerator._build_categoricals g rest imp
          (SpacetimeAggregationGenerator._build_choices g st c).2 with ⟨r2, st2⟩
      rw [h2] at h
      cases r2 with
      | error e => simp at h
      | ok tail =>
        simp only [Prod.mk.injEq, Except.ok.injEq] at h
        rw [← h.1] at hx
        rcases List.mem_cons.mp hx with hx1 | hx2
        · rw [hx1]
        · exact ih _ _ _ h2 x hx2

theorem build_array_categoricals_shape (g : SpacetimeAggregationGenerator)
    (cfgs : List CategoricalConfig) (imp : PyDict) :
    ∀ (st : GenState) (arrs : List Compare) (st' : GenState),
      SpacetimeAggregationGenerator._build_array_categoricals g cfgs imp st
        = (.ok arrs, st') →
      ∀ c ∈ arrs, c.include_null = true ∧ c.op = "@>" ∧ c.quote_choices = false
        ∧ ∀ p ∈ c.choices, p.2 = array_literal p.1 := by
  induction cfgs with
  | nil =>
    intro st arrs st' h c hc
    simp only [SpacetimeAggregationGenerator._build_array_categoricals,
      Prod.mk.injEq, Except.ok.injEq] at h
    rw [← h.1] at hc
    cases hc
  | cons c rest ih =>
    intro st arrs st' h x hx
    simp only [SpacetimeAggregationGenerator._build_array_categoricals] at h
    cases hm : dict_merge imp "array_categorical" c.imputation with
    | none => rw [hm] at h; simp at h
    | some m =>
      rw [hm] at h
      rcases h2 : SpacetimeAggregationGenerator._build_array_categoricals g rest
          imp (SpacetimeAggregationGenerator._build_choices g st c).2
          with ⟨r2, st2⟩
      rw [h2] at h
      cases r2 with
      | error e => simp at h
      | ok tail =>
        simp only [Prod.mk.injEq, Except.ok.injEq] at h
        rw [← h.1] at hx
        rcases List.mem_cons.mp hx with hx1 | hx2
        · rw [hx1]
          refine ⟨rfl, rfl, rfl, ?_⟩
          simp only [List.mem_map]
          rintro p ⟨a, _, rfl⟩
          rfl
        · exact ih _ _ _ h2 x hx2

/-- C8: every built categorical and array-categorical column spec has its
include-null flag set unconditionally; every array-categorical spec uses the
explicit containment operator `@>`, renders each discrete choice as a
single-element array literal, and suppresses quoting of choice literals. -/
theorem c8_null_flag_and_containment :
    (∀ (g : SpacetimeAggregationGenerator) (cfgs : List CategoricalConfig)
        (imp : PyDict) (st : GenState) (cats : List Categorical) (st' : GenState),
      SpacetimeAggregationGenerator._build_categoricals g cfgs imp st
        = (.ok cats, st') →
      ∀ c ∈ cats, c.include_null = true)
    ∧ (∀ (g : SpacetimeAggregationGenerator) (cfgs : List CategoricalConfig)
        (imp : PyDict) (st : GenState) (arrs : List Compare) (st' : GenState),
      SpacetimeAggregationGenerator._build_array_categoricals g cfgs imp st
        = (.ok arrs, st') →
      ∀ c ∈ arrs, c.include_null = true ∧ c.op = "@>" ∧ c.quote_choices = false
        ∧ ∀ p ∈ c.choices, p.2 = array_literal p.1) :=
  ⟨fun g cfgs imp => build_categoricals_include_null g cfgs imp,
   fun g cfgs imp => build_array_categoricals_shape g cfgs imp⟩

/-! Helper lemmas for C7. -/

theorem maybe_materialize_createdTables (f : FromObj) (s : Store) :
    (f.maybe_materialize s).createdTables =
      if looksLikeSubquery f.from_obj ∧ f.name ∉ s.createdTables then
        s.createdTables ++ [f.name]
      else s.createdTables := by
  simp only [FromObj.maybe_materialize]
  split <;> rfl

theorem preprocess_aggregation_fst (g : SpacetimeAggregationGenerator)
    (a : SpacetimeAggregation) (st : GenState) :
    (g.preprocess_aggregation a st).1 =
      if g.materialize_subquery_fromobjs then
        { a with from_obj :=
            (FromObj.table
              ⟨a.from_obj, a.features_schema_name ++ "." ++ a.prefix_name,
                a.date_column⟩) }
      else a := by
  by_cases hmat : g.materialize_subquery_fromobjs = true
  all_goals cases hcs : a.get_create_schema
  all_goals simp [SpacetimeAggregationGenerator.preprocess_aggregation, hcs, hmat]

theorem preprocess_aggregation_createdTables (g : SpacetimeAggregationGenerator)
    (a : SpacetimeAggregation) (st : GenState) :
    (g.preprocess_aggregation a st).2.store.createdTables =
      if g.materialize_subquery_fromobjs then
        (FromObj.maybe_materialize
          { from_obj := a.from_obj,
            name := a.features_schema_name ++ "." ++ a.prefix_name,
            knowledge_date_column := a.date_column } st.store).createdTables
      else st.store.createdTables := by
  by_cases hmat : g.materialize_subquery_fromobjs = true
  all_goals cases hcs : a.get_create_schema
  all_goals simp [SpacetimeAggregationGenerator.preprocess_aggregation, hcs,
    hmat, maybe_materialize_createdTables]

/-- C7: for an aggregation preprocessed with materialization enabled whose
source expression looks like a subquery, the materialization target is the
physical table named exactly `{features_schema_name}.{prefix}`; after
preprocessing the aggregation's source-expression field references that
physical table; and preprocessing the result a second time leaves the set of
created tables unchanged (the table is not recreated; in the embedding the
operation is total, so no exception is raised) and the source expression
still references the physical table. -/
theorem c7_materialization_target_and_idempotence
    (g : SpacetimeAggregationGenerator) (a : SpacetimeAggregation)
    (st : GenState)
    (hmat : g.materialize_subquery_fromobjs = true)
    (hsub : looksLikeSubquery a.from_obj = true) :
    ((g.preprocess_aggregation a st).1.from_obj
        = a.features_schema_name ++ "." ++ a.prefix_name)
    ∧ ((a.features_schema_name ++ "." ++ a.prefix_name)
        ∈ (g.preprocess_aggregation a st).2.store.createdTables)
    ∧ ((g.preprocess_aggregation (g.preprocess_aggregation a st).1
          (g.preprocess_aggregation a st).2).1.from_obj
        = a.features_schema_name ++ "." ++ a.prefix_name)
    ∧ ((g.preprocess_aggregation (g.preprocess_aggregation a st).1
          (g.preprocess_aggregation a st).2).2.store.createdTables
        = (g.preprocess_aggregation a st).2.store.createdTables) := by
  have h1 : (g.preprocess_aggregation a st).1
      = { a with from_obj := a.features_schema_name ++ "." ++ a.prefix_name } := by
    rw [preprocess_aggregation_fst, if_pos hmat]
    simp [FromObj.table, hsub]
  have hmem : (a.features_schema_name ++ "." ++ a.prefix_name)
      ∈ (g.preprocess_aggregation a st).2.store.createdTables := by
    rw [preprocess_aggregation_createdTables, if_pos hmat,
      maybe_materialize_createdTables]
    split
    · simp
    · rename_i hcond
      rcases not_and_or.mp hcond with hbad | hmemb
      · exact absurd hsub hbad
      · exact not_not.mp hmemb
  refine ⟨by rw [h1], hmem, ?_, ?_⟩
  · rw [preprocess_aggregation_fst, if_pos hmat, h1]
    by_cases hl : looksLikeSubquery (a.features_schema_name ++ "." ++ a.prefix_name) = true
    · simp [FromObj.table, hl]
    · simp [FromObj.table, hl]
  · rw [preprocess_aggregation_createdTables, if_pos hmat,
      maybe_materialize_createdTables, h1]
    rw [if_neg]
    intro hcond
    exact hcond.2 hmem

/-- A categorical config entry with an explicit choice list, for witnesses. -/
def sampleCategoricalConfig : CategoricalConfig :=
  { column := "c", metrics := ["max"], choices := some ["x"],
    choice_query := "q", imputation := [], coltype := none }

/-- The categorical spec built from `sampleCategoricalConfig` under empty
type-level imputation defaults. -/
def sampleCategoricalSpec : Categorical :=
  { col := "c", choices := ["x"], function := ["max"],
    impute_rules := [("coltype", "categorical")], include_null := true,
    coltype := none }

/-- The array-categorical spec built from `sampleCategoricalConfig` under
empty type-level imputation defaults. -/
def sampleCompareSpec : Compare :=
  { col := "c", op := "@>", choices := [("x", array_literal "x")],
    function := ["max"], impute_rules := [("coltype", "array_categorical")],
    op_in_name := false, quote_choices := false, include_null := true,
    coltype := none }

/-- C8 witness: one categorical and one array-categorical config entry with an
explicit choice list, built over the empty state: the resulting specs carry
the unconditional null flag, the `@>` operator, suppressed quoting and the
single-element array literal for the choice `x`. -/
theorem c8_null_flag_and_containment_witness :
    (∀ c ∈ [sampleCategoricalSpec], c.include_null = true)
    ∧ (∀ c ∈ [sampleCompareSpec],
      c.include_null = true ∧ c.op = "@>" ∧ c.quote_choices = false
        ∧ ∀ p ∈ c.choices, p.2 = array_literal p.1) :=
  ⟨c8_null_flag_and_containment.1 sampleGenerator [sampleCategoricalConfig]
      [] sampleState [sampleCategoricalSpec] sampleState rfl,
   c8_null_flag_and_containment.2 sampleGenerator [sampleCategoricalConfig]
      [] sampleState [sampleCompareSpec] sampleState rfl⟩

/-- A concrete aggregation whose source expression looks like a subquery. -/
def sampleAggregation : SpacetimeAggregation :=
  { aggregates := [], from_obj := "(select * from t) as s",
    intervals := ["1y"], groups := ["entity_id"],
    as_of_dates := ["2020-01-01"], cohort_table := "coh",
    entity_column := "entity_id", date_column := "kd",
    output_date_column := "as_of_date", feature_start_time := none,
    features_schema_name := "features", prefix_name := "p",
    features_ignore_cohort := false }

/-- C7 witness: preprocessing `sampleAggregation` twice: the first pass
creates `features.p` and rewrites the source expression to it; the second
pass leaves the created tables unchanged and the source expression still
referencing `features.p`. -/
theorem c7_materialization_target_and_idempotence_witness :
    ((sampleGenerator.preprocess_aggregation sampleAggregation sampleState).1.from_obj
        = sampleAggregation.features_schema_name ++ "." ++ sampleAggregation.prefix_name)
    ∧ ((sampleAggregation.features_schema_name ++ "." ++ sampleAggregation.prefix_name)
        ∈ (sampleGenerator.preprocess_aggregation sampleAggregation
            sampleState).2.store.createdTables)
    ∧ ((sampleGenerator.preprocess_aggregation
          (sampleGenerator.preprocess_aggregation sampleAggregation sampleState).1
          (sampleGenerator.preprocess_aggregation sampleAggregation sampleState).2).1.from_obj
        = sampleAggregation.features_schema_name ++ "." ++ sampleAggregation.prefix_name)
    ∧ ((sampleGenerator.preprocess_aggregation
          (sampleGenerator.preprocess_aggregation sampleAggregation sampleState).1
          (sampleGenerator.preprocess_aggregation sampleAggregation sampleState).2).2.store.createdTables
        = (sampleGenerator.preprocess_aggregation sampleAggregation
            sampleState).2.store.createdTables) :=
  c7_materialization_target_and_idempotence sampleGenerator sampleAggregation
    sampleState rfl (by decide)

/-! Store-evolution lemmas: every pipeline step preserves the warning stream
and only ever appends to the executed-query trace. -/

/-- The store after a pipeline step: warnings unchanged, query trace only
extended. -/
def StoreEvolves (s sNew : Store) : Prop :=
  sNew.warnings = s.warnings
    ∧ ∃ d, sNew.executedQueries = s.executedQueries ++ d

theorem storeEvolves_refl (s : Store) : StoreEvolves s s :=
  ⟨rfl, [], (List.append_nil _).symm⟩

theorem storeEvolves_trans {a b c : Store} (h1 : StoreEvolves a b)
    (h2 : StoreEvolves b c) : StoreEvolves a c := by
  obtain ⟨w1, d1, q1⟩ := h1
  obtain ⟨w2, d2, q2⟩ := h2
  exact ⟨w2.trans w1, d1 ++ d2, by rw [q2, q1, List.append_assoc]⟩

theorem compute_choices_evolves (g : SpacetimeAggregationGenerator)
    (st : GenState) (q : String) :
    StoreEvolves st.store
      ((SpacetimeAggregationGenerator._compute_choices g st q).2.store) := by
  simp only [SpacetimeAggregationGenerator._compute_choices]
  split
  · exact storeEvolves_refl _
  · exact ⟨rfl, [q], rfl⟩

theorem build_choices_evolves (g : SpacetimeAggregationGenerator)
    (st : GenState) (c : CategoricalConfig) :
    StoreEvolves st.store
      ((SpacetimeAggregationGenerator._build_choices g st c).2.store) := by
  simp only [SpacetimeAggregationGenerator._build_choices]
  split
  · exact storeEvolves_refl _
  · exact compute_choices_evolves g st _

theorem build_categoricals_evolves (g : SpacetimeAggregationGenerator)
    (cfgs : List CategoricalConfig) (imp : PyDict) :
    ∀ st : GenState, StoreEvolves st.store
      ((SpacetimeAggregationGenerator._build_categoricals g cfgs imp st).2.store) := by
  induction cfgs with
  | nil => intro st; exact storeEvolves_refl _
  | cons c rest ih =>
    intro st
    simp only [SpacetimeAggregationGenerator._build_categoricals]
    cases hm : dict_merge imp "categorical" c.imputation with
    | none => exact build_choices_evolves g st c
    | some m =>
      rcases h2 : SpacetimeAggregationGenerator._build_categoricals g rest imp
          (SpacetimeAggregationGenerator._build_choices g st c).2 with ⟨r2, st2⟩
      have hih := ih (SpacetimeAggregationGenerator._build_choices g st c).2
      rw [h2] at hih
      cases r2 <;>
        exact storeEvolves_trans (build_choices_evolves g st c) hih

theorem build_array_categoricals_evolves (g : SpacetimeAggregationGenerator)
    (cfgs : List CategoricalConfig) (imp : PyDict) :
    ∀ st : GenState, StoreEvolves st.store
      ((SpacetimeAggregationGenerator._build_array_categoricals g cfgs imp st).2.store) := by
  induction cfgs with
  | nil => intro st; exact storeEvolves_refl _
  | cons c rest ih =>
    intro st
    simp only [SpacetimeAggregationGenerator._build_array_categoricals]
    cases hm : dict_merge imp "array_categorical" c.imputation with
    | none => exact build_choices_evolves g st c
    | some m =>
      rcases h2 : SpacetimeAggregationGenerator._build_array_categoricals g rest
          imp (SpacetimeAggregationGenerator._build_choices g st c).2 with ⟨r2, st2⟩
      have hih := ih (SpacetimeAggregationGenerator._build_choices g st c).2
      rw [h2] at hih
      cases r2 <;>
        exact storeEvolves_trans (build_choices_evolves g st c) hih

theorem aggregation_evolves (g : SpacetimeAggregationGenerator)
    (cfg : AggregationConfig) (dates : List String) (stbl : String)
    (st : GenState) :
    StoreEvolves st.store
      ((SpacetimeAggregationGenerator._aggregation g cfg dates stbl st).2.store) := by
  simp only [SpacetimeAggregationGenerator._aggregation]
  split
  · exact storeEvolves_refl _
  · split
    · rename_i e st1 heq
      have hce := build_categoricals_evolves g cfg.categoricals
        cfg.categoricals_imputation st
      rw [heq] at hce
      exact hce
    · rename_i cats st1 heq
      have hce := build_categoricals_evolves g cfg.categoricals
        cfg.categoricals_imputation st
      rw [heq] at hce
      split
      · rename_i e2 st2 heq2
        have hae := build_array_categoricals_evolves g cfg.array_categoricals
          cfg.array_categoricals_imputation st1
        rw [heq2] at hae
        exact storeEvolves_trans hce hae
      · rename_i arrcats st2 heq2
        have hae := build_array_categoricals_evolves g cfg.array_categoricals
          cfg.array_categoricals_imputation st1
        rw [heq2] at hae
        exact storeEvolves_trans hce hae

theorem preprocess_aggregation_store_parts (g : SpacetimeAggregationGenerator)
    (a : SpacetimeAggregation) (st : GenState) :
    (g.preprocess_aggregation a st).2.categorical_cache = st.categorical_cache
    ∧ (g.preprocess_aggregation a st).2.store.executedQueries
        = st.store.executedQueries
    ∧ (g.preprocess_aggregation a st).2.store.warnings = st.store.warnings := by
  by_cases hmat : g.materialize_subquery_fromobjs = true
  all_goals cases hcs : a.get_create_schema
  all_goals
    simp only [SpacetimeAggregationGenerator.preprocess_aggregation, hcs, hmat,
      FromObj.maybe_materialize, if_true, if_false, Bool.false_eq_true,
      ite_false, ite_true]
  all_goals try split
  all_goals simp

theorem preprocess_aggregation_evolves (g : SpacetimeAggregationGenerator)
    (a : SpacetimeAggregation) (st : GenState) :
    StoreEvolves st.store ((g.preprocess_aggregation a st).2.store) := by
  obtain ⟨_, hq, hw⟩ := preprocess_aggregation_store_parts g a st
  exact ⟨hw, [], by rw [hq, List.append_nil]⟩

theorem aggregations_evolves (g : SpacetimeAggregationGenerator)
    (cfgs : List AggregationConfig) (dates : List String) (stbl : String) :
    ∀ st : GenState, StoreEvolves st.store
      ((SpacetimeAggregationGenerator.aggregations g cfgs dates stbl st).2.store) := by
  induction cfgs with
  | nil => intro st; exact storeEvolves_refl _
  | cons cfg rest ih =>
    intro st
    simp only [SpacetimeAggregationGenerator.aggregations]
    split
    · rename_i e st1 heq
      have hae := aggregation_evolves g cfg dates stbl st
      rw [heq] at hae
      exact hae
    · rename_i a st1 heq
      have hae := aggregation_evolves g cfg dates stbl st
      rw [heq] at hae
      have hpe := preprocess_aggregation_evolves g a st1
      split
      · rename_i e2 st3 heq2
        have hih := ih (g.preprocess_aggregation a st1).2
        rw [heq2] at hih
        exact storeEvolves_trans hae (storeEvolves_trans hpe hih)
      · rename_i bs st3 heq2
        have hih := ih (g.preprocess_aggregation a st1).2
        rw [heq2] at hih
        exact storeEvolves_trans hae (storeEvolves_trans hpe hih)

/-! Resolver-cache invariant: within one generator instance, the cache mirrors
the store oracle, every query executed during the instance's lifetime is
cached, and no query is executed twice. -/

theorem cacheLookup_cons (p : String × List String)
    (cache : List (String × List String)) (q : String) :
    cacheLookup (p :: cache) q
      = if p.1 = q then some p.2 else cacheLookup cache q := rfl

/-- Invariant of one resolver instance whose run started with query trace
`base`: every cached list is the row-order first-column result of its query;
the trace extends `base` by queries of this run only, each executed at most
once and all cached. -/
def ResolverInv (g : SpacetimeAggregationGenerator) (base : List String)
    (st : GenState) : Prop :=
  (∀ q vs, cacheLookup st.categorical_cache q = some vs →
    vs = (g.db_engine q).map Prod.fst)
  ∧ ∃ d, st.store.executedQueries = base ++ d
      ∧ ∀ q, d.count q ≤ 1
        ∧ (q ∈ d → (cacheLookup st.categorical_cache q).isSome)

theorem compute_choices_inv (g : SpacetimeAggregationGenerator)
    (base : List String) (st : GenState) (q : String)
    (h : ResolverInv g base st) :
    ResolverInv g base ((SpacetimeAggregationGenerator._compute_choices g st q).2) := by
  obtain ⟨hcache, d, hd, hcnt⟩ := h
  simp only [SpacetimeAggregationGenerator._compute_choices]
  split
  · exact ⟨hcache, d, hd, hcnt⟩
  · rename_i hl
    refine ⟨?_, d ++ [q], ?_, ?_⟩
    · intro q2 vs2 hq2
      dsimp only at hq2
      rw [cacheLookup_cons] at hq2
      by_cases hqq : q = q2
      · rw [if_pos hqq] at hq2
        subst hqq
        exact (Option.some.inj hq2).symm
      · rw [if_neg hqq] at hq2
        exact hcache q2 vs2 hq2
    · dsimp only
      rw [hd, List.append_assoc]
    · intro q2
      have hqnotd : q ∉ d := by
        intro hm
        have hsome := (hcnt q).2 hm
        rw [hl] at hsome
        simp at hsome
      constructor
      · rw [List.count_append]
        by_cases hqq : q2 = q
        · subst hqq
          rw [List.count_eq_zero.mpr hqnotd]
          simp
        · have h1 : List.count q2 [q] = 0 :=
            List.count_eq_zero.mpr (by simp [hqq])
          rw [h1]
          simpa using (hcnt q2).1
      · intro hm
        dsimp only
        rw [cacheLookup_cons]
        by_cases hqq : q = q2
        · rw [if_pos hqq]; simp
        · rw [if_neg hqq]
          rcases List.mem_append.mp hm with hm1 | hm2
          · exact (hcnt q2).2 hm1
          · have hq2q : q2 = q := by simpa using hm2
            exact absurd hq2q.symm hqq

theorem build_choices_inv (g : SpacetimeAggregationGenerator)
    (base : List String) (st : GenState) (c : CategoricalConfig)
    (h : ResolverInv g base st) :
    ResolverInv g base ((SpacetimeAggregationGenerator._build_choices g st c).2) := by
  simp only [SpacetimeAggregationGenerator._build_choices]
  split
  · exact h
  · exact compute_choices_inv g base st _ h

theorem build_categoricals_inv (g : SpacetimeAggregationGenerator)
    (cfgs : List CategoricalConfig) (imp : PyDict) :
    ∀ (base : List String) (st : GenState), ResolverInv g base st →
      ResolverInv g base
        ((SpacetimeAggregationGenerator._build_categoricals g cfgs imp st).2) := by
  induction cfgs with
  | nil => intro base st h; exact h
  | cons c rest ih =>
    intro base st h
    simp only [SpacetimeAggregationGenerator._build_categoricals]
    split
    · exact build_choices_inv g base st c h
    · split
      · rename_i e st2 heq
        have hh := ih base (SpacetimeAggregationGenerator._build_choices g st c).2
          (build_choices_inv g base st c h)
        rw [heq] at hh
        exact hh
      · rename_i tail st2 heq
        have hh := ih base (SpacetimeAggregationGenerator._build_choices g st c).2
          (build_choices_inv g base st c h)
        rw [heq] at hh
        exact hh

theorem build_array_categoricals_inv (g : SpacetimeAggregationGenerator)
    (cfgs : List CategoricalConfig) (imp : PyDict) :
    ∀ (base : List String) (st : GenState), ResolverInv g base st →
      ResolverInv g base
        ((SpacetimeAggregationGenerator._build_array_categoricals g cfgs imp st).2) := by
  induction cfgs with
  | nil => intro base st h; exact h
  | cons c rest ih =>
    intro base st h
    simp only [SpacetimeAggregationGenerator._build_array_categoricals]
    split
    · exact build_choices_inv g base st c h
    · split
      · rename_i e st2 heq
        have hh := ih base (SpacetimeAggregationGenerator._build_choices g st c).2
          (build_choices_inv g base st c h)
        rw [heq] at hh
        exact hh
      · rename_i tail st2 heq
        have hh := ih base (SpacetimeAggregationGenerator._build_choices g st c).2
          (build_choices_inv g base st c h)
        rw [heq] at hh
        exact hh

theorem aggregation_inv (g : SpacetimeAggregationGenerator)
    (cfg : AggregationConfig) (dates : List String) (stbl : String)
    (base : List String) (st : GenState) (h : ResolverInv g base st) :
    ResolverInv g base
      ((SpacetimeAggregationGenerator._aggregation g cfg dates stbl st).2) := by
  simp only [SpacetimeAggregationGenerator._aggregation]
  split
  · exact h
  · split
    · rename_i e st1 heq
      have hh := build_categoricals_inv g cfg.categoricals
        cfg.categoricals_imputation base st h
      rw [heq] at hh
      exact hh
    · rename_i cats st1 heq
      have hc := build_categoricals_inv g cfg.categoricals
        cfg.categoricals_imputation base st h
      rw [heq] at hc
      split
      · rename_i e2 st2 heq2
        have ha := build_array_categoricals_inv g cfg.array_categoricals
          cfg.array_categoricals_imputation base st1 hc
        rw [heq2] at ha
        exact ha
      · rename_i arrcats st2 heq2
        have ha := build_array_categoricals_inv g cfg.array_categoricals
          cfg.array_categoricals_imputation base st1 hc
        rw [heq2] at ha
        exact ha

theorem resolverInv_transfer (g : SpacetimeAggregationGenerator)
    (base : List String) {st stNew : GenState}
    (hcac : stNew.categorical_cache = st.categorical_cache)
    (hq : stNew.store.executedQueries = st.store.executedQueries)
    (h : ResolverInv g base st) : ResolverInv g base stNew := by
  obtain ⟨h1, d, hd, hcnt⟩ := h
  refine ⟨?_, d, ?_, ?_⟩
  · intro q vs hqv
    rw [hcac] at hqv
    exact h1 q vs hqv
  · rw [hq, hd]
  · intro q
    refine ⟨(hcnt q).1, fun hm => ?_⟩
    rw [hcac]
    exact (hcnt q).2 hm

theorem preprocess_aggregation_inv (g : SpacetimeAggregationGenerator)
    (base : List String) (a : SpacetimeAggregation) (st : GenState)
    (h : ResolverInv g base st) :
    ResolverInv g base ((g.preprocess_aggregation a st).2) := by
  obtain ⟨hcac, hq, _⟩ := preprocess_aggregation_store_parts g a st
  exact resolverInv_transfer g base hcac hq h

theorem aggregations_inv (g : SpacetimeAggregationGenerator)
    (cfgs : List AggregationConfig) (dates : List String) (stbl : String) :
    ∀ (base : List String) (st : GenState), ResolverInv g base st →
      ResolverInv g base
        ((SpacetimeAggregationGenerator.aggregations g cfgs dates stbl st).2) := by
  induction cfgs with
  | nil => intro base st h; exact h
  | cons cfg rest ih =>
    intro base st h
    simp only [SpacetimeAggregationGenerator.aggregations]
    split
    · rename_i e st1 heq
      have hh := aggregation_inv g cfg dates stbl base st h
      rw [heq] at hh
      exact hh
    · rename_i a st1 heq
      have ha := aggregation_inv g cfg dates stbl base st h
      rw [heq] at ha
      have hp := preprocess_aggregation_inv g base a st1 ha
      split
      · rename_i e2 st3 heq2
        have hh := ih base (g.preprocess_aggregation a st1).2 hp
        rw [heq2] at hh
        exact hh
      · rename_i bs st3 heq2
        have hh := ih base (g.preprocess_aggregation a st1).2 hp
        rw [heq2] at hh
        exact hh

theorem aggregations_queries_at_most_once (g : SpacetimeAggregationGenerator)
    (cfgs : List AggregationConfig) (dates : List String) (stbl : String)
    (store : Store) :
    ∃ d, (SpacetimeAggregationGenerator.aggregations g cfgs dates stbl
          { categorical_cache := [], store := store }).2.store.executedQueries
        = store.executedQueries ++ d ∧ ∀ q, d.count q ≤ 1 := by
  have h0 : ResolverInv g store.executedQueries
      { categorical_cache := [], store := store } := by
    refine ⟨?_, [], by simp, ?_⟩
    · intro q vs h
      simp [cacheLookup] at h
    · intro q
      simp
  obtain ⟨_, d, hd, hcnt⟩ :=
    aggregations_inv g cfgs dates stbl store.executedQueries
      { categorical_cache := [], store := store } h0
  exact ⟨d, hd, fun q => (hcnt q).1⟩

theorem generate_executed_queries (db_engine : String → List Row)
    (cfgs : List AggregationConfig) (dates : List String) (cohort : String)
    (schema : String) (fstart : Option String) (mat fic : Bool)
    (store : Store) :
    ∃ d, (generate_spacetime_aggregations db_engine cfgs dates cohort schema
          fstart mat fic store).2.executedQueries
        = store.executedQueries ++ d ∧ ∀ q, d.count q ≤ 1 := by
  by_cases hc : cohort = ""
  · simp only [generate_spacetime_aggregations]
    rw [if_pos hc, if_pos hc]
    exact aggregations_queries_at_most_once _ _ _ _ _
  · simp only [generate_spacetime_aggregations]
    rw [if_neg hc, if_neg hc]
    exact aggregations_queries_at_most_once _ _ _ _ _

/-- C2: (i) over any full `generate_spacetime_aggregations` run (one resolver
instance: the categorical cache starts empty and dies with the run), the
store's executed-query trace grows by a batch in which every query text
occurs at most once, however many entries across however many aggregation
blocks reference it; (ii) a resolution of a cached query returns exactly the
cached list and leaves the state untouched (no store query); (iii) the first
resolution of a query executes it, returns the row-order list of first-column
values, and caches that list under the exact query text. -/
theorem c2_choice_query_executed_at_most_once :
    (∀ (db_engine : String → List Row) (cfgs : List AggregationConfig)
        (dates : List String) (cohort schema : String)
        (fstart : Option String) (mat fic : Bool) (store : Store)
        (res : Except String (List SpacetimeAggregation)) (storeNew : Store),
      generate_spacetime_aggregations db_engine cfgs dates cohort schema
          fstart mat fic store = (res, storeNew) →
      ∃ d, storeNew.executedQueries = store.executedQueries ++ d
        ∧ ∀ q, d.count q ≤ 1)
    ∧ (∀ (g : SpacetimeAggregationGenerator) (st : GenState) (q : String)
        (vs : List String),
      cacheLookup st.categorical_cache q = some vs →
      SpacetimeAggregationGenerator._compute_choices g st q = (vs, st))
    ∧ (∀ (g : SpacetimeAggregationGenerator) (st : GenState) (q : String),
      cacheLookup st.categorical_cache q = none →
      SpacetimeAggregationGenerator._compute_choices g st q
        = ((g.db_engine q).map Prod.fst,
           { categorical_cache := (q, (g.db_engine q).map Prod.fst)
               :: st.categorical_cache,
             store := { st.store with
               executedQueries := st.store.executedQueries ++ [q] } })) := by
  refine ⟨?_, ?_, ?_⟩
  · intro db_engine cfgs dates cohort schema fstart mat fic store res storeNew h
    have hq := generate_executed_queries db_engine cfgs dates cohort schema
      fstart mat fic store
    rw [h] at hq
    exact hq
  · intro g st q vs h
    simp [SpacetimeAggregationGenerator._compute_choices, h]
  · intro g st q h
    simp [SpacetimeAggregationGenerator._compute_choices, h]

/-- A generator state with one cached choice query. -/
def cachedState : GenState :=
  { categorical_cache := [("q", ["v"])], store := sampleStore }

/-- An aggregation config whose two categoricals reference the same lookup
query with no explicit choices. -/
def sampleQueryConfig : AggregationConfig :=
  { aggregates_imputation := [], categoricals_imputation := [],
    array_categoricals_imputation := [], aggregates := [],
    categoricals :=
      [{ column := "c1", metrics := ["max"], choices := none,
         choice_query := "select distinct v from t", imputation := [],
         coltype := none },
       { column := "c2", metrics := ["sum"], choices := none,
         choice_query := "select distinct v from t", imputation := [],
         coltype := none }],
    array_categoricals := [], from_obj := "(select * from t) as s",
    intervals := ["1y"], groups := ["entity_id"],
    knowledge_date_column := "kd", prefix_name := "p" }

/-- C2 witness: a full generation run whose config references the same lookup
query twice executes queries each at most once; a cached query resolves to the
cached list with the state untouched; an uncached query resolves to the
row-order first-column values and caches them. -/
theorem c2_choice_query_executed_at_most_once_witness :
    (∃ d, (generate_spacetime_aggregations sampleDb [sampleQueryConfig]
          ["2020-01-01"] "coh" "features" none true false sampleStore).2.executedQueries
        = sampleStore.executedQueries ++ d ∧ ∀ q, d.count q ≤ 1)
    ∧ (SpacetimeAggregationGenerator._compute_choices sampleGenerator
        cachedState "q" = (["v"], cachedState))
    ∧ (SpacetimeAggregationGenerator._compute_choices sampleGenerator
        sampleState "select distinct v from t"
        = ((sampleGenerator.db_engine "select distinct v from t").map Prod.fst,
           { categorical_cache :=
               [("select distinct v from t",
                 (sampleGenerator.db_engine "select distinct v from t").map Prod.fst)],
             store := { sampleStore with
               executedQueries := sampleStore.executedQueries
                 ++ ["select distinct v from t"] } })) :=
  ⟨c2_choice_query_executed_at_most_once.1 sampleDb [sampleQueryConfig]
      ["2020-01-01"] "coh" "features" none true false sampleStore
      (generate_spacetime_aggregations sampleDb [sampleQueryConfig]
        ["2020-01-01"] "coh" "features" none true false sampleStore).1
      (generate_spacetime_aggregations sampleDb [sampleQueryConfig]
        ["2020-01-01"] "coh" "features" none true false sampleStore).2 rfl,
   c2_choice_query_executed_at_most_once.2.1 sampleGenerator cachedState
      "q" ["v"] rfl,
   c2_choice_query_executed_at_most_once.2.2 sampleGenerator sampleState
      "select distinct v from t" rfl⟩

/-! Feature-flag lemmas for C6. -/

theorem aggregation_flag (g : SpacetimeAggregationGenerator)
    (cfg : AggregationConfig) (dates : List String) (stbl : String)
    (st : GenState) (a : SpacetimeAggregation) (st2 : GenState)
    (h : SpacetimeAggregationGenerator._aggregation g cfg dates stbl st
      = (.ok a, st2)) :
    a.features_ignore_cohort = g.features_ignore_cohort := by
  simp only [SpacetimeAggregationGenerator._aggregation] at h
  split at h
  · simp at h
  · split at h
    · simp at h
    · split at h
      · simp at h
      · simp only [Prod.mk.injEq, Except.ok.injEq] at h
        rw [← h.1]

theorem preprocess_flag (g : SpacetimeAggregationGenerator)
    (a : SpacetimeAggregation) (st : GenState) :
    (g.preprocess_aggregation a st).1.features_ignore_cohort
      = a.features_ignore_cohort := by
  rw [preprocess_aggregation_fst]
  split <;> rfl

theorem aggregations_flag (g : SpacetimeAggregationGenerator)
    (cfgs : List AggregationConfig) (dates : List String) (stbl : String) :
    ∀ (st : GenState) (blocks : List SpacetimeAggregation) (st2 : GenState),
      SpacetimeAggregationGenerator.aggregations g cfgs dates stbl st
        = (.ok blocks, st2) →
      ∀ b ∈ blocks, b.features_ignore_cohort = g.features_ignore_cohort := by
  induction cfgs with
  | nil =>
    intro st blocks st2 h b hb
    simp only [SpacetimeAggregationGenerator.aggregations, Prod.mk.injEq,
      Except.ok.injEq] at h
    rw [← h.1] at hb
    cases hb
  | cons cfg rest ih =>
    intro st blocks st2 h b hb
    simp only [SpacetimeAggregationGenerator.aggregations] at h
    split at h
    · simp at h
    · rename_i a st1 heq
      split at h
      · simp at h
      · rename_i bs st3 heq2
        simp only [Prod.mk.injEq, Except.ok.injEq] at h
        rw [← h.1] at hb
        rcases List.mem_cons.mp hb with hb1 | hb2
        · rw [hb1, preprocess_flag]
          exact aggregation_flag g cfg dates stbl st a st1 heq
        · exact ih _ _ _ heq2 b hb2

theorem aggregations_fst_flag (g : SpacetimeAggregationGenerator)
    (cfgs : List AggregationConfig) (dates : List String) (stbl : String)
    (st : GenState) (blocks : List SpacetimeAggregation)
    (h : (SpacetimeAggregationGenerator.aggregations g cfgs dates stbl st).1
      = .ok blocks) :
    ∀ b ∈ blocks, b.features_ignore_cohort = g.features_ignore_cohort := by
  rcases hr : SpacetimeAggregationGenerator.aggregations g cfgs dates stbl st
    with ⟨r, st2⟩
  rw [hr] at h
  dsimp only at h
  rw [h] at hr
  exact aggregations_flag g cfgs dates stbl st blocks st2 hr

theorem generate_warnings (db_engine : String → List Row)
    (cfgs : List AggregationConfig) (dates : List String) (cohort : String)
    (schema : String) (fstart : Option String) (mat fic : Bool)
    (store : Store) :
    (generate_spacetime_aggregations db_engine cfgs dates cohort schema
        fstart mat fic store).2.warnings
      = if cohort = "" then store.warnings ++ [no_cohort_warning]
        else store.warnings := by
  by_cases hc : cohort = ""
  · simp only [generate_spacetime_aggregations]
    rw [if_pos hc, if_pos hc, if_pos hc,
      (aggregations_evolves _ _ _ _ _).1]
  · simp only [generate_spacetime_aggregations]
    rw [if_neg hc, if_neg hc, if_neg hc,
      (aggregations_evolves _ _ _ _ _).1]

/-- C6: when no cohort table is supplied (the falsy empty string), the run of
`generate_spacetime_aggregations` behaves exactly as if the caller had passed
`features_ignore_cohort = true` whatever value was actually passed (the flag
is forced on, observable on every produced feature block), it emits the
no-cohort warning, and the cohort check itself raises nothing (the run
completes, returning whatever result the forced-flag run returns). -/
theorem c6_absent_cohort_forces_cohort_independence
    (db_engine : String → List Row) (cfgs : List AggregationConfig)
    (dates : List String) (schema : String) (fstart : Option String)
    (mat fic : Bool) (store : Store)
    (res : Except String (List SpacetimeAggregation)) (storeNew : Store)
    (h : generate_spacetime_aggregations db_engine cfgs dates "" schema
      fstart mat fic store = (res, storeNew)) :
    generate_spacetime_aggregations db_engine cfgs dates "" schema fstart mat
        fic store
      = generate_spacetime_aggregations db_engine cfgs dates "" schema fstart
          mat true store
    ∧ storeNew.warnings = store.warnings ++ [no_cohort_warning]
    ∧ ∀ blocks, res = .ok blocks →
        ∀ b ∈ blocks, b.features_ignore_cohort = true := by
  refine ⟨?_, ?_, ?_⟩
  · simp [generate_spacetime_aggregations]
  · have hw := generate_warnings db_engine cfgs dates "" schema fstart mat fic
      store
    rw [h] at hw
    simpa using hw
  · intro blocks hres b hb
    rw [hres] at h
    have h1 : (SpacetimeAggregationGenerator.aggregations
        { db_engine := db_engine, features_schema_name := schema,
          feature_start_time := fstart,
          materialize_subquery_fromobjs := mat,
          features_ignore_cohort := true, entity_id_column := "entity_id" }
        cfgs dates ""
        { categorical_cache := [],
          store := { store with
            warnings := store.warnings ++ [no_cohort_warning] } }).1
        = .ok blocks := by
      have hfst := congrArg Prod.fst h
      simpa [generate_spacetime_aggregations] using hfst
    exact aggregations_fst_flag _ cfgs dates "" _ blocks h1 b hb

/-- C6 witness: a concrete run with the empty cohort table: the result equals
the forced-flag run, the warning is appended, and every produced block has
`features_ignore_cohort = true` although the caller passed `false`. -/
theorem c6_absent_cohort_forces_cohort_independence_witness :
    (generate_spacetime_aggregations sampleDb [sampleQueryConfig]
        ["2020-01-01"] "" "features" none true false sampleStore
      = generate_spacetime_aggregations sampleDb [sampleQueryConfig]
          ["2020-01-01"] "" "features" none true true sampleStore)
    ∧ ((generate_spacetime_aggregations sampleDb [sampleQueryConfig]
        ["2020-01-01"] "" "features" none true false sampleStore).2.warnings
      = sampleStore.warnings ++ [no_cohort_warning])
    ∧ (∀ blocks,
        (generate_spacetime_aggregations sampleDb [sampleQueryConfig]
          ["2020-01-01"] "" "features" none true false sampleStore).1
          = .ok blocks →
        ∀ b ∈ blocks, b.features_ignore_cohort = true) :=
  c6_absent_cohort_forces_cohort_independence sampleDb [sampleQueryConfig]
    ["2020-01-01"] "features" none true false sampleStore
    (generate_spacetime_aggregations sampleDb [sampleQueryConfig]
      ["2020-01-01"] "" "features" none true false sampleStore).1
    (generate_spacetime_aggregations sampleDb [sampleQueryConfig]
      ["2020-01-01"] "" "features" none true false sampleStore).2 rfl

/-! Ordering lemmas for C4. -/

theorem feature_blocks_loop_append (db_engine : String → List Row)
    (dates : List String) (cohort schema : String) (fstart : Option String)
    (mat fic : Bool) :
    ∀ (c1 c2 : List (String × List AggregationConfig)) (store : Store)
      (b1 : List SpacetimeAggregation) (st1 : Store)
      (b2 : List SpacetimeAggregation) (st2 : Store),
      feature_blocks_loop db_engine dates cohort schema fstart mat fic c1 store
        = (.ok b1, st1) →
      feature_blocks_loop db_engine dates cohort schema fstart mat fic c2 st1
        = (.ok b2, st2) →
      feature_blocks_loop db_engine dates cohort schema fstart mat fic
        (c1 ++ c2) store = (.ok (b1 ++ b2), st2) := by
  intro c1
  induction c1 with
  | nil =>
    intro c2 store b1 st1 b2 st2 h1 h2
    simp only [feature_blocks_loop, Prod.mk.injEq, Except.ok.injEq] at h1
    obtain ⟨hb, hst⟩ := h1
    subst hb
    subst hst
    simpa using h2
  | cons kv rest ih =>
    intro c2 store b1 st1 b2 st2 h1 h2
    obtain ⟨k, v⟩ := kv
    simp only [feature_blocks_loop] at h1
    split at h1
    · simp at h1
    · rename_i hlk
      split at h1
      · simp at h1
      · rename_i bs store1 hgen
        split at h1
        · simp at h1
        · rename_i more st1x hrec
          simp only [Prod.mk.injEq, Except.ok.injEq] at h1
          obtain ⟨hb, hst⟩ := h1
          subst hst
          have hr := ih c2 store1 more _ b2 st2 hrec h2
          simp [feature_blocks_loop, hlk, hgen, hr, ← hb, List.append_assoc]

theorem aggregations_append (g : SpacetimeAggregationGenerator)
    (dates : List String) (stbl : String) :
    ∀ (A B : List AggregationConfig) (st : GenState)
      (bA : List SpacetimeAggregation) (st1 : GenState)
      (bB : List SpacetimeAggregation) (st2 : GenState),
      SpacetimeAggregationGenerator.aggregations g A dates stbl st
        = (.ok bA, st1) →
      SpacetimeAggregationGenerator.aggregations g B dates stbl st1
        = (.ok bB, st2) →
      SpacetimeAggregationGenerator.aggregations g (A ++ B) dates stbl st
        = (.ok (bA ++ bB), st2) := by
  intro A
  induction A with
  | nil =>
    intro B st bA st1 bB st2 h1 h2
    simp only [SpacetimeAggregationGenerator.aggregations, Prod.mk.injEq,
      Except.ok.injEq] at h1
    obtain ⟨hb, hst⟩ := h1
    subst hb
    subst hst
    simpa using h2
  | cons cfg rest ih =>
    intro B st bA st1 bB st2 h1 h2
    simp only [SpacetimeAggregationGenerator.aggregations] at h1
    split at h1
    · simp at h1
    · rename_i a stA heq
      split at h1
      · simp at h1
      · rename_i bs stB heq2
        simp only [Prod.mk.injEq, Except.ok.injEq] at h1
        obtain ⟨hb, hst⟩ := h1
        subst hst
        have hr := ih B (g.preprocess_aggregation a stA).2 bs _ bB st2 heq2 h2
        simp [SpacetimeAggregationGenerator.aggregations, heq, hr, ← hb,
          List.append_assoc]

/-- C4: output ordering is concatenation in config order: (i) for a config
split into an item list `c1` followed by `c2`, the orchestrator's output is
the blocks of `c1` followed by the blocks of `c2` (strategy keys in config
order); (ii) within the spacetime strategy, the blocks for aggregation
configs `A` followed by `B` are the blocks of `A` in emission order followed
by the blocks of `B` in emission order — evaluation is sequential, so no
completion order can reorder them. -/
theorem c4_output_is_ordered_concatenation :
    (∀ (db_engine : String → List Row) (dates : List String)
        (cohort schema : String) (fstart : Option String) (mat fic : Bool)
        (c1 c2 : List (String × List AggregationConfig)) (store : Store)
        (b1 : List SpacetimeAggregation) (st1 : Store)
        (b2 : List SpacetimeAggregation) (st2 : Store),
      feature_blocks_from_config db_engine c1 dates cohort schema fstart mat
          fic store = (.ok b1, st1) →
      feature_blocks_from_config db_engine c2 dates cohort schema fstart mat
          fic st1 = (.ok b2, st2) →
      feature_blocks_from_config db_engine (c1 ++ c2) dates cohort schema
          fstart mat fic store = (.ok (b1 ++ b2), st2))
    ∧ (∀ (g : SpacetimeAggregationGenerator) (dates : List String)
        (stbl : String) (A B : List AggregationConfig) (st : GenState)
        (bA : List SpacetimeAggregation) (st1 : GenState)
        (bB : List SpacetimeAggregation) (st2 : GenState),
      SpacetimeAggregationGenerator.aggregations g A dates stbl st
        = (.ok bA, st1) →
      SpacetimeAggregationGenerator.aggregations g B dates stbl st1
        = (.ok bB, st2) →
      SpacetimeAggregationGenerator.aggregations g (A ++ B) dates stbl st
        = (.ok (bA ++ bB), st2)) :=
  ⟨fun db_engine dates cohort schema fstart mat fic c1 c2 store b1 st1 b2 st2
      h1 h2 =>
    feature_blocks_loop_append db_engine dates cohort schema fstart mat fic
      c1 c2 store b1 st1 b2 st2 h1 h2,
   fun g dates stbl A B st bA st1 bB st2 h1 h2 =>
    aggregations_append g dates stbl A B st bA st1 bB st2 h1 h2⟩

/-- C4 witness: two recognized strategy items concatenate their (empty) block
lists in order; two aggregation-config lists concatenate likewise. -/
theorem c4_output_is_ordered_concatenation_witness :
    (feature_blocks_from_config sampleDb
        ([("spacetime_aggregations", [])] ++ [("spacetime_aggregations", [])])
        ["2020-01-01"] "coh" "features" none true false sampleStore
      = (.ok ([] ++ []), sampleStore))
    ∧ (SpacetimeAggregationGenerator.aggregations sampleGenerator ([] ++ [])
        ["2020-01-01"] "coh" sampleState = (.ok ([] ++ []), sampleState)) :=
  ⟨c4_output_is_ordered_concatenation.1 sampleDb ["2020-01-01"] "coh"
      "features" none true false [("spacetime_aggregations", [])]
      [("spacetime_aggregations", [])] sampleStore [] sampleStore []
      sampleStore rfl rfl,
   c4_output_is_ordered_concatenation.2 sampleGenerator ["2020-01-01"] "coh"
      [] [] sampleState [] sampleState [] sampleState rfl rfl⟩

/-- C9: a successful `aggregations` run yields exactly one feature block per
aggregation-block config, and the block at index `i` is obtained by building
and preprocessing the config at index `i` in the state reached after the
first `i` configs. -/
theorem c9_exactly_one_block_per_config (g : SpacetimeAggregationGenerator)
    (dates : List String) (stbl : String) :
    ∀ (cfgs : List AggregationConfig) (st : GenState)
      (blocks : List SpacetimeAggregation) (st2 : GenState),
      SpacetimeAggregationGenerator.aggregations g cfgs dates stbl st
        = (.ok blocks, st2) →
      blocks.length = cfgs.length
      ∧ ∀ (i : Nat) (hc : i < cfgs.length) (hb : i < blocks.length),
          ∃ stA stB a,
            SpacetimeAggregationGenerator.aggregations g (cfgs.take i) dates
                stbl st = (.ok (blocks.take i), stA)
            ∧ SpacetimeAggregationGenerator._aggregation g (cfgs.get ⟨i, hc⟩)
                dates stbl stA = (.ok a, stB)
            ∧ (g.preprocess_aggregation a stB).1 = blocks.get ⟨i, hb⟩ := by
  intro cfgs
  induction cfgs with
  | nil =>
    intro st blocks st2 h
    simp only [SpacetimeAggregationGenerator.aggregations, Prod.mk.injEq,
      Except.ok.injEq] at h
    obtain ⟨hb0, hst⟩ := h
    subst hb0
    exact ⟨rfl, fun i hc hb => absurd hc (Nat.not_lt_zero i)⟩
  | cons cfg rest ih =>
    intro st blocks st2 h
    simp only [SpacetimeAggregationGenerator.aggregations] at h
    split at h
    · simp at h
    · rename_i a st1 heq
      split at h
      · simp at h
      · rename_i bs st3 heq2
        simp only [Prod.mk.injEq, Except.ok.injEq] at h
        obtain ⟨hbl, hst⟩ := h
        subst hst
        subst hbl
        obtain ⟨hlen, hidx⟩ := ih (g.preprocess_aggregation a st1).2 bs _ heq2
        refine ⟨by simp [hlen], ?_⟩
        intro i hc hb
        cases i with
        | zero =>
          refine ⟨st, st1, a, ?_, heq, rfl⟩
          simp [SpacetimeAggregationGenerator.aggregations]
        | succ n =>
          have hc2 : n < rest.length := Nat.lt_of_succ_lt_succ hc
          have hb2 : n < bs.length := by
            have hbx := hb
            simp only [List.length_cons] at hbx
            exact Nat.lt_of_succ_lt_succ hbx
          obtain ⟨stA, stB, a2, ha1, ha2, ha3⟩ := hidx n hc2 hb2
          refine ⟨stA, stB, a2, ?_, ?_, ?_⟩
          · simp only [List.take_succ_cons]
            simp [SpacetimeAggregationGenerator.aggregations, heq, ha1]
          · exact ha2
          · exact ha3

/-- The run of one aggregation config, for the C9 witness. -/
def sampleRun : Except String (List SpacetimeAggregation) × GenState :=
  SpacetimeAggregationGenerator.aggregations sampleGenerator
    [sampleQueryConfig] ["2020-01-01"] "coh" sampleState

/-- C9 witness: the one-config run produces exactly one block, built and
preprocessed from that config. -/
theorem c9_exactly_one_block_per_config_witness :
    (sampleRun.1.toOption.getD []).length = [sampleQueryConfig].length
    ∧ ∀ (i : Nat) (hc : i < [sampleQueryConfig].length)
        (hb : i < (sampleRun.1.toOption.getD []).length),
        ∃ stA stB a,
          SpacetimeAggregationGenerator.aggregations sampleGenerator
              ([sampleQueryConfig].take i) ["2020-01-01"] "coh" sampleState
            = (.ok ((sampleRun.1.toOption.getD []).take i), stA)
          ∧ SpacetimeAggregationGenerator._aggregation sampleGenerator
              ([sampleQueryConfig].get ⟨i, hc⟩) ["2020-01-01"] "coh" stA
            = (.ok a, stB)
          ∧ (sampleGenerator.preprocess_aggregation a stB).1
            = (sampleRun.1.toOption.getD []).get ⟨i, hb⟩ :=
  c9_exactly_one_block_per_config sampleGenerator ["2020-01-01"] "coh"
    [sampleQueryConfig] sampleState (sampleRun.1.toOption.getD [])
    sampleRun.2 (by decide)

/-! Rejection of an unrecognized strategy key, for C1. -/

theorem feature_blocks_loop_unrecognized (db_engine : String → List Row)
    (dates : List String) (cohort schema : String) (fstart : Option String)
    (mat fic : Bool) :
    ∀ (pre : List (String × List AggregationConfig)) (k : String)
      (v : List AggregationConfig)
      (rest : List (String × List AggregationConfig)) (store : Store)
      (acc : List SpacetimeAggregation) (st1 : Store),
      FEATURE_BLOCK_GENERATOR_LOOKUP k = none →
      feature_blocks_loop db_engine dates cohort schema fstart mat fic pre
        store = (.ok acc, st1) →
      feature_blocks_loop db_engine dates cohort schema fstart mat fic
        (pre ++ (k, v) :: rest) store
        = (.error (unrecognized_key_message k), st1) := by
  intro pre
  induction pre with
  | nil =>
    intro k v rest store acc st1 hk h1
    simp only [feature_blocks_loop, Prod.mk.injEq, Except.ok.injEq] at h1
    obtain ⟨_, hst⟩ := h1
    subst hst
    simp [feature_blocks_loop, hk]
  | cons kv pre2 ih =>
    intro k v rest store acc st1 hk h1
    obtain ⟨k1, v1⟩ := kv
    simp only [feature_blocks_loop] at h1
    split at h1
    · simp at h1
    · rename_i hlk
      split at h1
      · simp at h1
      · rename_i bs store1 hgen
        split at h1
        · simp at h1
        · rename_i more st1x hrec
          simp only [Prod.mk.injEq, Except.ok.injEq] at h1
          obtain ⟨hb, hst⟩ := h1
          subst hst
          have hr := ih k v rest store1 more _ hk hrec
          simp [feature_blocks_loop, hlk, hgen, hr]

/-- C1 (amended): a config item list consisting of recognized keys `pre`
(whose processing succeeds) followed by an unrecognized key `k` makes
`feature_blocks_from_config` fail with the `ValueError` whose message
enumerates the recognized generator keys, and no output list is returned (the
blocks already built for `pre` are discarded with the exception).  The store,
however, is left in the state reached after processing `pre`: in particular,
when the unrecognized key comes first (`pre = []`), no block is built and no
store call is made, but when recognized keys precede it their store calls
have already happened (see the counterexample).  The second conjunct spells
out that the enumerated-keys rendering in the message lists the recognized
key. -/
theorem c1_unrecognized_key_rejected (db_engine : String → List Row)
    (dates : List String) (cohort schema : String) (fstart : Option String)
    (mat fic : Bool) (pre : List (String × List AggregationConfig))
    (k : String) (v : List AggregationConfig)
    (rest : List (String × List AggregationConfig)) (store : Store)
    (acc : List SpacetimeAggregation) (st1 : Store)
    (hk : FEATURE_BLOCK_GENERATOR_LOOKUP k = none)
    (hpre : feature_blocks_loop db_engine dates cohort schema fstart mat fic
      pre store = (.ok acc, st1)) :
    feature_blocks_from_config db_engine (pre ++ (k, v) :: rest) dates cohort
        schema fstart mat fic store
      = (.error (unrecognized_key_message k), st1)
    ∧ feature_block_generator_keys
      = "dict_keys([\x27" ++ "spacetime_aggregations" ++ "\x27])" :=
  ⟨feature_blocks_loop_unrecognized db_engine dates cohort schema fstart mat
      fic pre k v rest store acc st1 hk hpre, rfl⟩

/-- C1 counterexample: a config whose first key is the recognized
`spacetime_aggregations` (with a categorical that needs a lookup query) and
whose second key is unrecognized.  The run does fail with the enumerating
error and returns no list — but the store trace shows a choice query was
already executed before the rejection, contradicting the claim that the
failure happens before any store call regardless of where the unrecognized
key appears. -/
theorem c1_unrecognized_key_rejected_counterexample :
    (feature_blocks_from_config sampleDb
        [("spacetime_aggregations", [sampleQueryConfig]), ("bogus", [])]
        ["2020-01-01"] "coh" "features" none true false sampleStore).1
      = .error (unrecognized_key_message "bogus")
    ∧ (feature_blocks_from_config sampleDb
        [("spacetime_aggregations", [sampleQueryConfig]), ("bogus", [])]
        ["2020-01-01"] "coh" "features" none true false sampleStore).2.executedQueries
      = ["select distinct v from t"] := by decide

/-- C1 witness: with the unrecognized key in front position (after a
recognized key whose config list is empty, so the prefix makes no store
call), the run fails with the enumerating error and the store is returned
untouched. -/
theorem c1_unrecognized_key_rejected_witness :
    (feature_blocks_from_config sampleDb
        ([("spacetime_aggregations", [])] ++ [("bogus", [])])
        ["2020-01-01"] "coh" "features" none true false sampleStore
      = (.error (unrecognized_key_message "bogus"), sampleStore))
    ∧ feature_block_generator_keys
      = "dict_keys([\x27" ++ "spacetime_aggregations" ++ "\x27])" :=
  c1_unrecognized_key_rejected sampleDb ["2020-01-01"] "coh" "features" none
    true false [("spacetime_aggregations", [])] "bogus" [] [] sampleStore []
    sampleStore rfl rfl

end Triage
